import Mathlib

/-!
# cat-database-app: the HTTP handlers of `server.go`

A shallow embedding of `server.go` (a Fiber web front-end over thecatapi.com)
and the properties of its three routes.

Modelling decisions.

* A Go `string` is its byte sequence: `GoString = List Nat`, every element a
  byte (`< 256`). String literals of the source are written `lit "..."`
  (their UTF-8 bytes).
* A value of type `interface{}` produced by `encoding/json` is a `JVal`; a
  `map[string]interface{}` is an association list `JMap` (the nil map is `[]`).
* The result of a Go function is an `Outcome`: it returns, it panics (index
  out of range), or the process is terminated (`log.Fatalf`).
* The Go standard library functions the source calls (`strings.Split`,
  `strings.ToUpper`, `strings.ToLower`) follow the library's implementation;
  the Unicode table walk `strings.Map(unicode.ToUpper/ToLower, s)`, reached
  only by strings holding a non-ASCII byte, is a parameter (`Unicode`).
-/

namespace CatApp

/-! ## Go strings -/

/-- A Go string: its bytes. -/
abbrev GoString := List Nat

/-- UTF-8 encoding of a code point (Go's `utf8.AppendRune` on a valid rune). -/
def utf8Encode (r : Nat) : GoString :=
  if r < 0x80 then [r]
  else if r < 0x800 then [0xC0 + r / 64, 0x80 + r % 64]
  else if r < 0x10000 then [0xE0 + r / 4096, 0x80 + (r / 64) % 64, 0x80 + r % 64]
  else [0xF0 + r / 262144, 0x80 + (r / 4096) % 64, 0x80 + (r / 64) % 64, 0x80 + r % 64]

/-- A string literal of the source, as a Go string (its UTF-8 bytes). -/
def lit (s : String) : GoString :=
  s.data.flatMap (fun c => utf8Encode c.toNat)

/-- Every byte is below `utf8.RuneSelf` (0x80). -/
def isASCII (s : GoString) : Bool := s.all (fun c => decide (c < 0x80))

/-- The byte is in `'A'..'Z'`. -/
def isUpperByte (c : Nat) : Bool := decide (65 ≤ c) && decide (c ≤ 90)

/-- The byte is in `'a'..'z'`. -/
def isLowerByte (c : Nat) : Bool := decide (97 ≤ c) && decide (c ≤ 122)

/-- The byte is an ASCII letter. -/
def isLetterByte (c : Nat) : Bool := isUpperByte c || isLowerByte c

/-- ASCII branch of `strings.ToUpper`: `if 'a' <= c && c <= 'z' { c -= 'a' - 'A' }`. -/
def upperByte (c : Nat) : Nat := if isLowerByte c then c - 32 else c

/-- ASCII branch of `strings.ToLower`: `if 'A' <= c && c <= 'Z' { c += 'a' - 'A' }`. -/
def lowerByte (c : Nat) : Nat := if isUpperByte c then c + 32 else c

/-- The part of the Go standard library that walks the Unicode case tables:
`strings.Map(unicode.ToUpper, s)` and `strings.Map(unicode.ToLower, s)`.
`strings.ToUpper` and `strings.ToLower` call them only on a string that holds a
byte `>= 0x80`. -/
structure Unicode where
  mapUpper : GoString → GoString
  mapLower : GoString → GoString

/-- Go `strings.ToUpper`: scan for a non-ASCII byte and for a lower-case letter
(`isASCII`, `hasLower`); an ASCII string without lower-case letters is returned
as is, any other ASCII string is mapped byte by byte; a non-ASCII string goes to
`Map(unicode.ToUpper, s)`. -/
def ToUpper (U : Unicode) (s : GoString) : GoString :=
  if isASCII s then
    if !(s.any isLowerByte) then s else s.map upperByte
  else U.mapUpper s

/-- Go `strings.ToLower`, the mirror image of `ToUpper`. -/
def ToLower (U : Unicode) (s : GoString) : GoString :=
  if isASCII s then
    if !(s.any isUpperByte) then s else s.map lowerByte
  else U.mapLower s

/-- Go `strings.Index(s, substr)`: the least `i` with `s[i:i+len(substr)] == substr`;
`none` stands for `-1`. -/
def Index : GoString → GoString → Option Nat
  | [], substr => if substr.isPrefixOf [] then some 0 else none
  | c :: s, substr =>
    if substr.isPrefixOf (c :: s) then some 0
    else (Index s substr).map (fun i => i + 1)

/-- The loop of Go `strings.Count` for a non-empty `substr`:
`for { i := Index(s, substr); if i == -1 { return n }; n++; s = s[i+len(substr):] }`.
The first argument bounds the number of iterations. -/
def countLoop (substr : GoString) : Nat → GoString → Nat
  | 0, _ => 0
  | fuel + 1, s =>
    match Index s substr with
    | none => 0
    | some i => countLoop substr fuel (s.drop (i + substr.length)) + 1

/-- Go `strings.Count(s, substr)` for a non-empty `substr`: the number of
non-overlapping occurrences. Each iteration of the loop removes at least one
byte, so `len(s)` iterations are enough (`countLoop_fuel`). -/
def Count (s substr : GoString) : Nat := countLoop substr s.length s

/-- The loop of Go `genSplit`, run for at most `n` separators:
`for i < n { m := Index(s, sep); if m < 0 { break }; a[i] = s[:m]; s = s[m+len(sep):]; i++ }`
followed by `a[i] = s; return a[:i+1]`. -/
def splitLoop (sep : GoString) : Nat → GoString → List GoString
  | 0, s => [s]
  | n + 1, s =>
    match Index s sep with
    | none => [s]
    | some m => s.take m :: splitLoop sep n (s.drop (m + sep.length))

/-- Go `strings.Split(s, sep)` = `genSplit(s, sep, 0, -1)` for a non-empty
separator: `n = Count(s, sep) + 1` pieces are cut off at the successive leftmost
occurrences of `sep`. (The branch for `sep == ""` is not reached by the
program, whose only separator is `", "`.) -/
def Split (s sep : GoString) : List GoString := splitLoop sep (Count s sep) s

/-! ## JSON values and Go type assertions -/

/-- A value of type `interface{}` as `encoding/json` produces it: `nil`, `bool`,
`float64` (kept as its bit pattern, never inspected by the program), `string`,
`[]interface{}` or `map[string]interface{}`. -/
inductive JVal where
  | null
  | bool (b : Bool)
  | num (bits : Nat)
  | str (s : GoString)
  | arr (xs : List JVal)
  | obj (kvs : List (GoString × JVal))

/-- A Go `map[string]interface{}`; the nil map is `[]`. -/
abbrev JMap := List (GoString × JVal)

/-- Go map indexing `m[k]`: the value stored under `k`, or the zero value
(the nil interface) when the key is absent. -/
def JMap.get (m : JMap) (k : GoString) : JVal :=
  match m.lookup k with
  | some v => v
  | none => JVal.null

/-- The type assertion `v.(string)`; `none` when `ok` is false. -/
def asString : JVal → Option GoString
  | .str s => some s
  | _ => none

/-- The type assertion `v.([]interface{})`. -/
def asSlice : JVal → Option (List JVal)
  | .arr xs => some xs
  | _ => none

/-- The type assertion `v.(map[string]interface{})`. -/
def asMap : JVal → Option JMap
  | .obj kvs => some kvs
  | _ => none

/-! ## Outcomes of Go code -/

/-- How a piece of Go code ends: it returns a value, it panics (an index or a
slice bound out of range), or the process is terminated by `log.Fatalf`. -/
inductive Outcome (α : Type) where
  | ret (a : α)
  | panic
  | exit

/-- Sequencing of outcomes. -/
def Outcome.bind {α β : Type} : Outcome α → (α → Outcome β) → Outcome β
  | .ret a, f => f a
  | .panic, _ => .panic
  | .exit, _ => .exit

instance : Monad Outcome where
  pure := Outcome.ret
  bind := Outcome.bind

/-- Go `xs[i]`: panics when `i` is out of range. -/
def index {α : Type} (xs : List α) (i : Nat) : Outcome α :=
  match xs.get? i with
  | some x => .ret x
  | none => .panic

/-- Go `xs[i:]`: panics when `i > len(xs)`. -/
def sliceFrom {α : Type} (xs : List α) (i : Nat) : Outcome (List α) :=
  if i ≤ xs.length then .ret (xs.drop i) else .panic

/-- Go `xs[:j]` on a slice whose capacity is its length: panics when
`j > len(xs)`. -/
def sliceTo {α : Type} (xs : List α) (j : Nat) : Outcome (List α) :=
  if j ≤ xs.length then .ret (xs.take j) else .panic

/-- Fiber `log.Fatalf`: writes the message and calls `os.Exit(1)`. -/
def logFatalf : Outcome Unit := .exit

/-! ## The Upstream Client -/

/-- A Go `error` value (its message). -/
abbrev GoError := String

/-- The dynamic type of the `interface{}` that `connectAPI` returns. -/
inductive Data where
  | list (dataArray : List JMap)
  | object (dataObject : JMap)

/-- What the HTTP exchange with the upstream gives for one URL. The body that
was read is kept as the JSON document it parses to (`none`: not valid JSON). -/
inductive Fetch where
  | requestError
  | sendError
  | readError
  | body (doc : Option JVal)

/-- The environment of the process: the value of `CAT_API_KEY` and the
upstream's behaviour per URL. -/
structure World where
  apiKey : GoString
  get : GoString → Fetch

/-- Decoding of one array element into `map[string]interface{}`: an object
gives its map, `null` the nil map, anything else a type error. -/
def unmarshalElem : JVal → Option JMap
  | .obj kvs => some kvs
  | .null => some []
  | _ => none

/-- Go `json.Unmarshal(body, &dataArray)` with `dataArray []map[string]interface{}`:
`none` when it returns an error. -/
def unmarshalArray : Option JVal → Option (List JMap)
  | some (.arr xs) => xs.mapM unmarshalElem
  | some .null => some []
  | _ => none

/-- Go `json.Unmarshal(body, &dataObject)` with `dataObject map[string]interface{}`. -/
def unmarshalObject : Option JVal → Option JMap
  | some (.obj kvs) => some kvs
  | some .null => some []
  | _ => none

/-- The function `connectAPI` of `server.go`. Every error path logs with
`log.Fatalf` before its `return nil, err`. -/
def connectAPI (W : World) (url : GoString) : Outcome (Except GoError Data) :=
  if W.apiKey = [] then do
    logFatalf
    return .error "API key is not set in the environment variables"
  else
    match W.get url with
    | .requestError => do logFatalf; return .error "http.NewRequest"
    | .sendError => do logFatalf; return .error "client.Do"
    | .readError => do logFatalf; return .error "ioutil.ReadAll"
    | .body doc =>
      match unmarshalArray doc with
      | some dataArray => return .ok (.list dataArray)
      | none =>
        match unmarshalObject doc with
        | some dataObject => return .ok (.object dataObject)
        | none => do logFatalf; return .error "json.Unmarshal"

/-- An Upstream Client: what the call `connectAPI(url)` gives. The handlers
take it as an argument; the client of the source is `connectAPI W`. -/
abbrev Client := GoString → Outcome (Except GoError Data)

/-- The function `getSingleCatImageByBreed` of `server.go`. -/
def getSingleCatImageByBreed (api : Client) (breed : GoString) :
    Outcome (Except GoError JMap) := do
  let url := lit "https://api.thecatapi.com/v1/images/search?has_breeds=1&limit=1&breed_ids=" ++ breed
  match ← api url with
  | .error err => return .error err
  | .ok (.list dataArray) =>
    if dataArray.length > 0 then do
      let first ← index dataArray 0
      return .ok first
    else return .error "no data"
  | .ok _ => return .error "unexpected response format"

/-- The function `getCatImages` of `server.go`. -/
def getCatImages (api : Client) : Outcome (Except GoError (List JMap)) := do
  match ← api (lit "https://api.thecatapi.com/v1/images/search?has_breeds=1&limit=20") with
  | .error err => return .error err
  | .ok (.list dataArray) => return .ok dataArray
  | .ok _ => return .error "unexpected response format"

/-- The function `getCatImageByID` of `server.go`. -/
def getCatImageByID (api : Client) (id : GoString) : Outcome (Except GoError JMap) := do
  let url := lit "https://api.thecatapi.com/v1/images/" ++ id
  match ← api url with
  | .error err => return .error err
  | .ok (.object dataObject) => return .ok dataObject
  | .ok _ => return .error "unexpected response format"

/-! ## Responses -/

/-- A value bound to a template variable in a `fiber.Map`. -/
inductive Value where
  | str (s : GoString)
  | strs (xs : List GoString)
  | maps (xs : List JMap)

/-- A `fiber.Map` literal: its bindings, in the order of the source. -/
abbrev FiberMap := List (GoString × Value)

/-- An HTTP response: a status with a plain body, or a status with a rendered
template and its bindings. -/
inductive Response where
  | text (status : Nat) (body : GoString)
  | view (status : Nat) (name : GoString) (bindings : FiberMap)

/-- Fiber `c.Status(status).SendString(body)`. -/
def sendString (status : Nat) (body : GoString) : Response := .text status body

/-- Fiber `c.Render(name, bindings)`; the status stays at its default, 200. -/
def render (name : GoString) (bindings : FiberMap) : Response := .view 200 name bindings

/-! ## The program -/

/-- The function `capitalize` of `server.go`:
`strings.ToUpper(string(s[0])) + strings.ToLower(s[1:])` unless `len(s) == 0`.
`string(s[0])` converts a byte to the UTF-8 encoding of the code point of that
value. -/
def capitalize (U : Unicode) (s : GoString) : Outcome GoString := do
  if s.length == 0 then
    return []
  let first ← index s 0
  let rest ← sliceFrom s 1
  return ToUpper U (utf8Encode first) ++ ToLower U rest

/-- The handler of `GET /` in `main`. -/
def indexHandler (api : Client) : Outcome Response := do
  match ← getCatImages api with
  | .error _ => return sendString 500 (lit "Failed to get cat images")
  | .ok catImages => return render (lit "index") [(lit "Results", .maps catImages)]

/-- The handler of `GET /cat/:id` in `main`; `id` is `c.Params("id")`. -/
def catHandler (U : Unicode) (api : Client) (id : GoString) : Outcome Response := do
  match ← getCatImageByID api id with
  | .error _ => return sendString 500 (lit "Failed to get cat image by ID")
  | .ok catData =>
    -- Extract the URL from the catData map
    match asString (catData.get (lit "url")) with
    | none => return sendString 500 (lit "Failed to get URL from cat data")
    | some url =>
      -- Extract the name from the breeds array
      let mut breedName : GoString := []
      let mut weightMetric : GoString := []
      let mut temperaments : List GoString := []
      let mut originCountry : GoString := []
      if let some breeds := asSlice (catData.get (lit "breeds")) then
        if breeds.length > 0 then
          if let some breed := asMap (← index breeds 0) then
            if let some name := asString (breed.get (lit "name")) then
              breedName := name
            if let some weight := asMap (breed.get (lit "weight")) then
              if let some metric := asString (weight.get (lit "metric")) then
                weightMetric := metric
            if let some temperament := asString (breed.get (lit "temperament")) then
              temperaments := Split temperament (lit ", ")
              if temperaments.length > 3 then
                temperaments ← sliceTo temperaments 3
            if let some origin := asString (breed.get (lit "origin")) then
              originCountry := origin
      return render (lit "cat-detail")
        [(lit "ImageUrl", .str url),
         (lit "Name", .str (← capitalize U breedName)),
         (lit "Weight", .str weightMetric),
         (lit "Temperaments", .strs temperaments),
         (lit "Origin", .str originCountry)]

/-- The handler of `GET /search` in `main`; `query` is `c.Query("q")`. The
`fmt.Println(catData)` of the source writes to standard output only. -/
def searchHandler (U : Unicode) (api : Client) (query : GoString) : Outcome Response := do
  let q := ToLower U query
  match ← getSingleCatImageByBreed api q with
  | .error _ =>
    return render (lit "cat-detail")
      [(lit "Error", .str (lit "Oops! There seems to be no cat by that breed in our database."))]
  | .ok catData =>
    -- Extract the URL from the catData map
    match asString (catData.get (lit "url")) with
    | none => return sendString 500 (lit "Failed to get URL from cat data")
    | some url =>
      -- Extract the name from the breeds array
      let mut breedName : GoString := []
      let mut weightMetric : GoString := []
      let mut temperaments : List GoString := []
      let mut originCountry : GoString := []
      if let some breeds := asSlice (catData.get (lit "breeds")) then
        if breeds.length > 0 then
          if let some breed := asMap (← index breeds 0) then
            if let some name := asString (breed.get (lit "name")) then
              breedName := name
            if let some weight := asMap (breed.get (lit "weight")) then
              if let some metric := asString (weight.get (lit "metric")) then
                weightMetric := metric
            if let some temperament := asString (breed.get (lit "temperament")) then
              temperaments := Split temperament (lit ", ")
              if temperaments.length > 3 then
                temperaments ← sliceTo temperaments 3
            if let some origin := asString (breed.get (lit "origin")) then
              originCountry := origin
      return render (lit "cat-detail")
        [(lit "ImageUrl", .str url),
         (lit "Name", .str (← capitalize U breedName)),
         (lit "Weight", .str weightMetric),
         (lit "Temperaments", .strs temperaments),
         (lit "Origin", .str originCountry)]

/-! ## Definitions used in the statements -/

/-- The URL `getCatImageByID` asks for. -/
abbrev idURL (id : GoString) : GoString :=
  lit "https://api.thecatapi.com/v1/images/" ++ id

/-- The URL `getSingleCatImageByBreed` asks for. -/
abbrev searchURL (breed : GoString) : GoString :=
  lit "https://api.thecatapi.com/v1/images/search?has_breeds=1&limit=1&breed_ids=" ++ breed

/-- The URL `getCatImages` asks for. -/
abbrev galleryURL : GoString :=
  lit "https://api.thecatapi.com/v1/images/search?has_breeds=1&limit=20"

/-- The cat-detail render with its five bindings. -/
def detailView (url name weight : GoString) (temperaments : List GoString)
    (origin : GoString) : Response :=
  render (lit "cat-detail")
    [(lit "ImageUrl", .str url),
     (lit "Name", .str name),
     (lit "Weight", .str weight),
     (lit "Temperaments", .strs temperaments),
     (lit "Origin", .str origin)]

/-- The cat-detail render of `/search` with the single binding `Error`. -/
def errorView : Response :=
  render (lit "cat-detail")
    [(lit "Error", .str (lit "Oops! There seems to be no cat by that breed in our database."))]

/-- The response `500 Failed to get URL from cat data`. -/
def urlFailure : Response := sendString 500 (lit "Failed to get URL from cat data")

/-- A client that answers every URL with the same result. -/
def always (d : Data) : Client := fun _ => .ret (.ok d)

/-- What both detail handlers do with a raw image map: the `/cat/:id` handler
run on a client that returns the map. -/
def detail (U : Unicode) (m : JMap) : Outcome Response :=
  catHandler U (always (.object m)) []

/-- The value `capitalize` returns. -/
def capitalized (U : Unicode) : GoString → GoString
  | [] => []
  | first :: rest => ToUpper U (utf8Encode first) ++ ToLower U rest

/-- The first breed of a raw image map, when `breeds` is a non-empty sequence
whose first element is a map. -/
def firstBreed (m : JMap) : Option JMap :=
  match asSlice (m.get (lit "breeds")) with
  | some (b :: _) => asMap b
  | _ => none

/-- The variable `breedName` at the end of the extraction. -/
def nameOf : Option JMap → GoString
  | some breed => (asString (breed.get (lit "name"))).getD []
  | none => []

/-- The variable `weightMetric` at the end of the extraction. -/
def weightOf : Option JMap → GoString
  | some breed =>
    match asMap (breed.get (lit "weight")) with
    | some weight => (asString (weight.get (lit "metric"))).getD []
    | none => []
  | none => []

/-- The variable `temperaments` at the end of the extraction. -/
def temperamentsOf : Option JMap → List GoString
  | some breed =>
    match asString (breed.get (lit "temperament")) with
    | some s => (Split s (lit ", ")).take 3
    | none => []
  | none => []

/-- The variable `originCountry` at the end of the extraction. -/
def originOf : Option JMap → GoString
  | some breed => (asString (breed.get (lit "origin"))).getD []
  | none => []

/-- Case tables that leave every string as it is; the ASCII examples below
never reach them. -/
def noTables : Unicode := ⟨fun s => s, fun s => s⟩

/-- The breed of scenario S2, with a given `temperament`. -/
def siameseBreed (temperament : GoString) : JMap :=
  [(lit "name", .str (lit "siamese")),
   (lit "weight", .obj [(lit "metric", .str (lit "3 - 5"))]),
   (lit "temperament", .str temperament),
   (lit "origin", .str (lit "Thailand"))]

/-- The image of scenario S2, with a given `temperament`:
`{"url":"https://x/a.jpg","breeds":[{"name":"siamese","weight":{"metric":"3 - 5"},"temperament":...,"origin":"Thailand"}]}`. -/
def siameseImage (temperament : GoString) : JMap :=
  [(lit "url", .str (lit "https://x/a.jpg")),
   (lit "breeds", .arr [.obj (siameseBreed temperament)])]

/-- The image of scenario S3: `{"id":"abc","url":"https://x/b.jpg","breeds":[]}`. -/
def noBreedImage : JMap :=
  [(lit "id", .str (lit "abc")),
   (lit "url", .str (lit "https://x/b.jpg")),
   (lit "breeds", .arr [])]

/-- The image `{"id":"abc","url":""}`. -/
def emptyUrlImage : JMap :=
  [(lit "id", .str (lit "abc")), (lit "url", .str [])]

/-- The image of scenario S5: `{"id":"abc"}`. -/
def noUrlImage : JMap := [(lit "id", .str (lit "abc"))]

/-- A process environment with a credential whose upstream answers every
request with the body `not json`. -/
def notJsonWorld : World := ⟨lit "secret", fun _ => .body none⟩

/-- A process environment with a credential whose upstream cannot be reached:
`client.Do` fails on every request. -/
def unreachableWorld : World := ⟨lit "secret", fun _ => .sendError⟩

/-- The Name property of the specification, on ASCII text: the string is empty,
or it starts with an upper-case letter and every later letter is lower-case. -/
def NameShape (r : GoString) : Prop :=
  r = [] ∨ ∃ c rest, r = c :: rest ∧ isUpperByte c = true ∧
    ∀ b ∈ rest, isLetterByte b = true → isLowerByte b = true

/-! ## Lemmas -/

@[simp] theorem Outcome.ret_bind {α β : Type} (a : α) (f : α → Outcome β) :
    (Outcome.ret a >>= f) = f a := rfl

@[simp] theorem Outcome.panic_bind {α β : Type} (f : α → Outcome β) :
    (Outcome.panic >>= f) = Outcome.panic := rfl

@[simp] theorem Outcome.exit_bind {α β : Type} (f : α → Outcome β) :
    (Outcome.exit >>= f) = Outcome.exit := rfl

@[simp] theorem Outcome.pure_eq {α : Type} (a : α) : (pure a : Outcome α) = Outcome.ret a := rfl

/-- The function `capitalize` returns on every string: its index and its slice
are in range whenever they are reached. -/
theorem capitalize_eq (U : Unicode) (s : GoString) :
    capitalize U s = .ret (capitalized U s) := by
  cases s with
  | nil => rfl
  | cons b t => simp [capitalize, capitalized, index, sliceFrom]

theorem sliceTo_of_lt {α : Type} (xs : List α) (j : Nat) (h : xs.length > j) :
    sliceTo xs j = .ret (xs.take j) := by
  simp [sliceTo, Nat.le_of_lt h]

theorem detail_url_none (U : Unicode) (m : JMap) (h : asString (m.get (lit "url")) = none) :
    detail U m = .ret urlFailure := by
  simp only [detail, always, catHandler, getCatImageByID, h, Outcome.ret_bind, Outcome.pure_eq,
    urlFailure]

set_option maxHeartbeats 1000000 in
/-- The detail handlers on a map with a string `url`: the extraction never
panics and the render binds the five extracted values. -/
theorem detail_url_some (U : Unicode) (m : JMap) (url : GoString)
    (h : asString (m.get (lit "url")) = some url) :
    detail U m = .ret (detailView url (capitalized U (nameOf (firstBreed m)))
      (weightOf (firstBreed m)) (temperamentsOf (firstBreed m)) (originOf (firstBreed m))) := by
  simp only [detail, always, catHandler, getCatImageByID, Outcome.ret_bind, Outcome.pure_eq, h,
    capitalize_eq, firstBreed, detailView]
  generalize asSlice (m.get (lit "breeds")) = ob
  cases ob with
  | none => rfl
  | some xs =>
    cases xs with
    | nil => rfl
    | cons b rest =>
      simp only [List.length_cons, index, List.get?, Outcome.ret_bind, gt_iff_lt,
        Nat.zero_lt_succ, if_true]
      generalize asMap b = obreed
      cases obreed with
      | none => rfl
      | some breed =>
        simp only [nameOf, weightOf, temperamentsOf, originOf]
        generalize asString (breed.get (lit "name")) = vn
        generalize asString (breed.get (lit "origin")) = vo
        generalize asMap (breed.get (lit "weight")) = vw
        generalize asString (breed.get (lit "temperament")) = vt
        cases vn <;> cases vo <;> cases vw <;> cases vt <;> simp only [Option.getD] <;>
          (repeat' split) <;>
          simp_all [sliceTo_of_lt, List.take_of_length_le]

/-- The `/cat/:id` handler on an Object result is the detail projection. -/
theorem catHandler_object (U : Unicode) (api : Client) (id : GoString) (m : JMap)
    (h : api (idURL id) = .ret (.ok (.object m))) :
    catHandler U api id = detail U m := by
  simp only [detail, always, catHandler, getCatImageByID, h, Outcome.ret_bind, Outcome.pure_eq]

/-- The `/search` handler on a non-empty List result is the detail projection
of element 0. -/
theorem searchHandler_cons (U : Unicode) (api : Client) (q : GoString) (m : JMap)
    (rest : List JMap) (h : api (searchURL (ToLower U q)) = .ret (.ok (.list (m :: rest)))) :
    searchHandler U api q = detail U m := by
  simp only [detail, always, searchHandler, catHandler, getCatImageByID,
    getSingleCatImageByBreed, h, Outcome.ret_bind, Outcome.pure_eq, List.length_cons, index,
    List.get?, gt_iff_lt, Nat.zero_lt_succ, if_true]

/-- A string that does not contain `substr` has no index for it. -/
theorem Index_eq_none (substr : GoString) :
    ∀ s : GoString, ¬ substr <:+: s → Index s substr = none := by
  intro s
  induction s with
  | nil =>
    intro h
    have hp : substr.isPrefixOf [] = false := by
      cases hb : substr.isPrefixOf [] with
      | false => rfl
      | true => exact absurd (List.isPrefixOf_iff_prefix.mp hb).isInfix h
    simp [Index, hp]
  | cons c s ih =>
    intro h
    have hp : substr.isPrefixOf (c :: s) = false := by
      cases hb : substr.isPrefixOf (c :: s) with
      | false => rfl
      | true => exact absurd (List.isPrefixOf_iff_prefix.mp hb).isInfix h
    have hs : ¬ substr <:+: s := fun hi => h (List.infix_cons hi)
    simp [Index, hp, ih hs]

/-- Go: "If s does not contain sep and sep is not empty, Split returns a slice
of length 1 whose only element is s." -/
theorem Split_without_sep (s sep : GoString) (h : ¬ sep <:+: s) : Split s sep = [s] := by
  have hi := Index_eq_none sep s h
  unfold Split Count
  cases s.length with
  | zero => rfl
  | succ n => simp [countLoop, splitLoop, hi]

/-- The truncation `if len(temperaments) > 3 { temperaments = temperaments[:3] }`
leaves at most three pieces. -/
theorem temperamentsOf_length (b : Option JMap) : (temperamentsOf b).length ≤ 3 := by
  cases b with
  | none => simp [temperamentsOf]
  | some breed =>
    simp only [temperamentsOf]
    split
    · simp [List.length_take]
    · simp

theorem Index_nil (substr : GoString) (h : substr ≠ []) : Index [] substr = none := by
  cases substr with
  | nil => exact absurd rfl h
  | cons a t => rfl

/-- At the index that `Index` returns the string continues with `substr`. -/
theorem Index_some (substr : GoString) :
    ∀ (s : GoString) (i : Nat), Index s substr = some i →
      s = s.take i ++ substr ++ s.drop (i + substr.length) := by
  intro s
  induction s with
  | nil =>
    intro i h
    cases substr with
    | nil => simp
    | cons a t => simp [Index, List.isPrefixOf] at h
  | cons c s ih =>
    intro i h
    unfold Index at h
    split at h
    · rename_i hp
      obtain ⟨t, ht⟩ := List.isPrefixOf_iff_prefix.mp hp
      cases h
      simp only [List.take_zero, List.nil_append, Nat.zero_add]
      rw [← ht, List.drop_left]
    · cases hi : Index s substr with
      | none => simp [hi] at h
      | some j =>
        simp only [hi, Option.map_some', Option.some.injEq] at h
        subst h
        have := ih j hi
        simp only [List.take_succ_cons, List.cons_append, Nat.add_right_comm j 1,
          List.drop_succ_cons]
        exact congrArg (c :: ·) this

/-- Before the index that `Index` returns there is no occurrence of `substr`. -/
theorem Index_some_min (substr : GoString) (hne : substr ≠ []) :
    ∀ (s : GoString) (i : Nat), Index s substr = some i → ¬ substr <:+: s.take i := by
  intro s
  induction s with
  | nil =>
    intro i h
    rw [Index_nil substr hne] at h
    cases h
  | cons c s ih =>
    intro i h
    unfold Index at h
    split at h
    · cases h
      intro hi
      exact hne (List.eq_nil_of_infix_nil hi)
    · rename_i hp
      cases hi : Index s substr with
      | none => simp [hi] at h
      | some j =>
        simp only [hi, Option.map_some', Option.some.injEq] at h
        subst h
        intro hin
        rw [List.take_succ_cons] at hin
        rcases List.infix_cons_iff.mp hin with hpre | hin'
        · apply hp
          apply List.isPrefixOf_iff_prefix.mpr
          exact hpre.trans ((List.prefix_cons_inj c).mpr (List.take_prefix j s))
        · exact ih j hi hin'

/-- An index is returned exactly when the string contains `substr`. -/
theorem Index_eq_none_iff (substr s : GoString) : Index s substr = none ↔ ¬ substr <:+: s := by
  constructor
  · intro h hin
    induction s with
    | nil =>
      have hnil := List.eq_nil_of_infix_nil hin
      subst hnil
      simp [Index] at h
    | cons c s ih =>
      unfold Index at h
      split at h
      · cases h
      · rename_i hp
        rcases List.infix_cons_iff.mp hin with hpre | hin'
        · exact hp (List.isPrefixOf_iff_prefix.mpr hpre)
        · apply ih _ hin'
          cases hi : Index s substr with
          | none => rfl
          | some j => simp [hi] at h
  · exact Index_eq_none substr s

/-- The iteration bound of `Count` is enough: any larger bound gives the same
count. -/
theorem countLoop_fuel (substr : GoString) (hne : substr ≠ []) :
    ∀ (fuel : Nat) (s : GoString), s.length ≤ fuel →
      countLoop substr fuel s = Count s substr := by
  have key : ∀ (f1 f2 : Nat) (s : GoString), s.length ≤ f1 → s.length ≤ f2 →
      countLoop substr f1 s = countLoop substr f2 s := by
    intro f1
    induction f1 with
    | zero =>
      intro f2 s h1 _
      have hs : s = [] := List.length_eq_zero.mp (Nat.le_zero.mp h1)
      subst hs
      cases f2 with
      | zero => rfl
      | succ n => simp [countLoop, Index_nil substr hne]
    | succ n ih =>
      intro f2 s h1 h2
      cases f2 with
      | zero =>
        have hs : s = [] := List.length_eq_zero.mp (Nat.le_zero.mp h2)
        subst hs
        simp [countLoop, Index_nil substr hne]
      | succ k =>
        simp only [countLoop]
        cases hi : Index s substr with
        | none => rfl
        | some i =>
          have hl : 0 < substr.length := List.length_pos.mpr hne
          have hd : (s.drop (i + substr.length)).length ≤ n := by
            rw [List.length_drop]; omega
          have hd2 : (s.drop (i + substr.length)).length ≤ k := by
            rw [List.length_drop]; omega
          simp only [ih k _ hd hd2]
  intro fuel s h
  exact key fuel s.length s h (Nat.le_refl _)

/-- The pieces of `Split`, joined by the separator, give the string back. -/
theorem splitLoop_join (sep : GoString) :
    ∀ (n : Nat) (s : GoString), sep.intercalate (splitLoop sep n s) = s := by
  have hcons : ∀ (a : GoString) (l : List GoString), l ≠ [] →
      sep.intercalate (a :: l) = a ++ sep ++ sep.intercalate l := by
    intro a l hl
    cases l with
    | nil => exact absurd rfl hl
    | cons b t => simp [List.intercalate, List.intersperse]
  have hne : ∀ (n : Nat) (s : GoString), splitLoop sep n s ≠ [] := by
    intro n s
    cases n with
    | zero => simp [splitLoop]
    | succ k =>
      simp only [splitLoop]
      split <;> simp
  intro n
  induction n with
  | zero => intro s; simp [splitLoop, List.intercalate]
  | succ k ih =>
    intro s
    simp only [splitLoop]
    cases hi : Index s sep with
    | none => simp [List.intercalate]
    | some m =>
      simp only []
      rw [hcons _ _ (hne k _), ih]
      exact (Index_some sep s m hi).symm

/-- No piece of `Split` contains the separator: the split is complete. -/
theorem Split_pieces (sep : GoString) (hne : sep ≠ []) :
    ∀ (s : GoString), ∀ p ∈ Split s sep, ¬ sep <:+: p := by
  have key : ∀ (fuel : Nat) (s : GoString), s.length ≤ fuel →
      ∀ p ∈ splitLoop sep (countLoop sep fuel s) s, ¬ sep <:+: p := by
    intro fuel
    induction fuel with
    | zero =>
      intro s h p hp
      have hs : s = [] := List.length_eq_zero.mp (Nat.le_zero.mp h)
      subst hs
      simp only [countLoop, splitLoop, List.mem_singleton] at hp
      subst hp
      exact fun hin => hne (List.eq_nil_of_infix_nil hin)
    | succ n ih =>
      intro s h p hp
      simp only [countLoop] at hp
      cases hi : Index s sep with
      | none =>
        simp only [hi, splitLoop, List.mem_singleton] at hp
        subst hp
        exact (Index_eq_none_iff sep p).mp hi
      | some i =>
        simp only [hi, splitLoop, List.mem_cons] at hp
        have hl : 0 < sep.length := List.length_pos.mpr hne
        rcases hp with hp | hp
        · subst hp
          exact Index_some_min sep hne s i hi
        · refine ih (s.drop (i + sep.length)) ?_ p hp
          rw [List.length_drop]; omega
  intro s
  exact key s.length s (Nat.le_refl _)

/-- A template render by the `/cat/:id` handler is the detail projection of an
Object result with a string `url`. -/
theorem catHandler_view (U : Unicode) (api : Client) (id : GoString) (status : Nat)
    (name : GoString) (bs : FiberMap) (h : catHandler U api id = .ret (.view status name bs)) :
    ∃ m url, api (idURL id) = .ret (.ok (.object m)) ∧ m.get (lit "url") = .str url ∧
      Response.view status name bs = detailView url (capitalized U (nameOf (firstBreed m)))
        (weightOf (firstBreed m)) (temperamentsOf (firstBreed m)) (originOf (firstBreed m)) := by
  cases ha : api (idURL id) with
  | panic =>
    simp only [catHandler, getCatImageByID, ha, Outcome.panic_bind] at h
    cases h
  | exit =>
    simp only [catHandler, getCatImageByID, ha, Outcome.exit_bind] at h
    cases h
  | ret r =>
    cases r with
    | error e =>
      simp only [catHandler, getCatImageByID, ha, Outcome.ret_bind, Outcome.pure_eq,
        sendString] at h
      cases h
    | ok d =>
      cases d with
      | list xs =>
        simp only [catHandler, getCatImageByID, ha, Outcome.ret_bind, Outcome.pure_eq,
          sendString] at h
        cases h
      | object m =>
        rw [catHandler_object U api id m ha] at h
        cases hv : m.get (lit "url") with
        | str url =>
          rw [detail_url_some U m url (by rw [hv]; rfl)] at h
          exact ⟨m, url, rfl, hv, (Outcome.ret.inj h).symm⟩
        | _ =>
          rw [detail_url_none U m (by rw [hv]; rfl)] at h
          simp only [urlFailure, sendString] at h
          cases h

/-- A template render by the `/search` handler is the error view or the detail
projection of element 0 of a non-empty List result with a string `url`. -/
theorem searchHandler_view (U : Unicode) (api : Client) (q : GoString) (status : Nat)
    (name : GoString) (bs : FiberMap) (h : searchHandler U api q = .ret (.view status name bs)) :
    Response.view status name bs = errorView ∨
    ∃ m rest url, api (searchURL (ToLower U q)) = .ret (.ok (.list (m :: rest))) ∧
      m.get (lit "url") = .str url ∧
      Response.view status name bs = detailView url (capitalized U (nameOf (firstBreed m)))
        (weightOf (firstBreed m)) (temperamentsOf (firstBreed m)) (originOf (firstBreed m)) := by
  cases ha : api (searchURL (ToLower U q)) with
  | panic =>
    simp only [searchHandler, getSingleCatImageByBreed, ha, Outcome.panic_bind] at h
    cases h
  | exit =>
    simp only [searchHandler, getSingleCatImageByBreed, ha, Outcome.exit_bind] at h
    cases h
  | ret r =>
    cases r with
    | error e =>
      simp only [searchHandler, getSingleCatImageByBreed, ha, Outcome.ret_bind,
        Outcome.pure_eq] at h
      exact Or.inl (Outcome.ret.inj h).symm
    | ok d =>
      cases d with
      | object o =>
        simp only [searchHandler, getSingleCatImageByBreed, ha, Outcome.ret_bind,
          Outcome.pure_eq] at h
        exact Or.inl (Outcome.ret.inj h).symm
      | list xs =>
        cases xs with
        | nil =>
          simp only [searchHandler, getSingleCatImageByBreed, ha, Outcome.ret_bind,
            Outcome.pure_eq, List.length_nil, gt_iff_lt, Nat.lt_irrefl, if_false] at h
          exact Or.inl (Outcome.ret.inj h).symm
        | cons m rest =>
          rw [searchHandler_cons U api q m rest ha] at h
          cases hv : m.get (lit "url") with
          | str url =>
            rw [detail_url_some U m url (by rw [hv]; rfl)] at h
            exact Or.inr ⟨m, rest, url, rfl, hv, (Outcome.ret.inj h).symm⟩
          | _ =>
            rw [detail_url_none U m (by rw [hv]; rfl)] at h
            simp only [urlFailure, sendString] at h
            cases h

theorem upperByte_of_not_lower (c : Nat) (h : isLowerByte c = false) : upperByte c = c := by
  simp [upperByte, h]

theorem lowerByte_of_not_upper (c : Nat) (h : isUpperByte c = false) : lowerByte c = c := by
  simp [lowerByte, h]

/-- On an ASCII string `strings.ToLower` maps byte by byte. -/
theorem ToLower_ascii (U : Unicode) (s : GoString) (h : isASCII s = true) :
    ToLower U s = s.map lowerByte := by
  unfold ToLower
  rw [if_pos h]
  split
  · rename_i hn
    have hid : s.map lowerByte = s.map id := by
      apply List.map_congr_left
      intro b hb
      apply lowerByte_of_not_upper
      cases hu : isUpperByte b with
      | false => rfl
      | true =>
        have : s.any isUpperByte = true := List.any_eq_true.mpr ⟨b, hb, hu⟩
        simp [this] at hn
    rw [hid, List.map_id]
  · rfl

/-- On the one-byte string of an ASCII byte `strings.ToUpper` maps the byte. -/
theorem ToUpper_ascii_byte (U : Unicode) (c : Nat) (h : c < 128) :
    ToUpper U (utf8Encode c) = [upperByte c] := by
  have he : utf8Encode c = [c] := by simp [utf8Encode, h]
  have ha : isASCII [c] = true := by simp [isASCII, h]
  rw [he]
  unfold ToUpper
  rw [if_pos ha]
  cases hl : isLowerByte c with
  | false => simp [hl, upperByte_of_not_lower c hl]
  | true => simp [hl]

theorem isUpperByte_upperByte_of_letter (c : Nat) (h : isLetterByte c = true) :
    isUpperByte (upperByte c) = true := by
  simp only [isLetterByte, isUpperByte, isLowerByte, upperByte, Bool.or_eq_true,
    Bool.and_eq_true, decide_eq_true_eq] at *
  split <;> omega

theorem lowerByte_letter_is_lower (b : Nat) (h : isLetterByte (lowerByte b) = true) :
    isLowerByte (lowerByte b) = true := by
  simp only [isLetterByte, isUpperByte, isLowerByte, lowerByte, Bool.or_eq_true,
    Bool.and_eq_true, decide_eq_true_eq] at *
  split at h <;> split <;> omega

/-- The function `connectAPI` never returns an error: each of its error paths
ends the process in `log.Fatalf` first. -/
theorem connectAPI_no_error (W : World) (url : GoString) (e : GoError) :
    connectAPI W url ≠ .ret (.error e) := by
  unfold connectAPI
  split
  · intro h; cases h
  · split
    · intro h; cases h
    · intro h; cases h
    · intro h; cases h
    · split
      · intro h; cases h
      · split
        · intro h; cases h
        · intro h; cases h

/-- With a credential, a body that decodes neither as an array of objects nor
as an object ends the process. -/
theorem connectAPI_undecodable (W : World) (url : GoString) (doc : Option JVal)
    (hkey : W.apiKey ≠ []) (hget : W.get url = .body doc)
    (harr : unmarshalArray doc = none) (hobj : unmarshalObject doc = none) :
    connectAPI W url = .exit := by
  simp only [connectAPI, hkey, if_false, hget, harr, hobj]
  rfl

/-- `GET /` on a List result: the list is the Results binding of `index`. -/
theorem indexHandler_list (api : Client) (xs : List JMap)
    (h : api galleryURL = .ret (.ok (.list xs))) :
    indexHandler api = .ret (.view 200 (lit "index") [(lit "Results", .maps xs)]) := by
  simp only [indexHandler, getCatImages, h, Outcome.ret_bind, Outcome.pure_eq]
  rfl

/-- `GET /` on an Object result or an error: 500 "Failed to get cat images". -/
theorem indexHandler_not_list (api : Client)
    (h : (∃ o, api galleryURL = .ret (.ok (.object o))) ∨ ∃ e, api galleryURL = .ret (.error e)) :
    indexHandler api = .ret (.text 500 (lit "Failed to get cat images")) := by
  rcases h with ⟨o, h⟩ | ⟨e, h⟩ <;>
    simp only [indexHandler, getCatImages, h, Outcome.ret_bind, Outcome.pure_eq] <;> rfl

/-- The `/search` handler below the Upstream Client: were a client to return an
empty List, an Object or an error, the handler would render cat-detail with
the single binding Error and status 200; on a non-empty List it answers as for
the list of element 0 alone, which is the detail projection of element 0.
(The client of the source, `connectAPI W`, never returns an error:
`connectAPI_no_error`.) -/
theorem searchHandler_given_outcome (U : Unicode) (api : Client) (q : GoString) :
    ((api (searchURL (ToLower U q)) = .ret (.ok (.list [])) ∨
        (∃ o, api (searchURL (ToLower U q)) = .ret (.ok (.object o))) ∨
        (∃ e, api (searchURL (ToLower U q)) = .ret (.error e))) →
      searchHandler U api q = .ret (.view 200 (lit "cat-detail")
        [(lit "Error",
          .str (lit "Oops! There seems to be no cat by that breed in our database."))])) ∧
    (∀ m rest, api (searchURL (ToLower U q)) = .ret (.ok (.list (m :: rest))) →
      searchHandler U api q = searchHandler U (always (.list [m])) q ∧
      searchHandler U api q = catHandler U (always (.object m)) []) := by
  constructor
  · intro h
    rcases h with h | ⟨o, h⟩ | ⟨e, h⟩
    · simp only [searchHandler, getSingleCatImageByBreed, h, Outcome.ret_bind, Outcome.pure_eq,
        List.length_nil, gt_iff_lt, Nat.lt_irrefl, if_false]
      rfl
    · simp only [searchHandler, getSingleCatImageByBreed, h, Outcome.ret_bind, Outcome.pure_eq]
      rfl
    · simp only [searchHandler, getSingleCatImageByBreed, h, Outcome.ret_bind, Outcome.pure_eq]
      rfl
  · intro m rest h
    rw [searchHandler_cons U api q m rest h,
      searchHandler_cons U (always (.list [m])) q m [] rfl]
    exact ⟨rfl, rfl⟩

/-- Scenario S1 (the upstream returns `[]`), and a list of two images (the
second, without `url`, is ignored). -/
theorem searchHandler_given_outcome_example :
    searchHandler noTables (always (.list [])) (lit "notabreed")
      = .ret (.view 200 (lit "cat-detail")
          [(lit "Error",
            .str (lit "Oops! There seems to be no cat by that breed in our database."))]) ∧
    searchHandler noTables (always (.list [noBreedImage, noUrlImage])) (lit "siam")
      = searchHandler noTables (always (.list [noBreedImage])) (lit "siam") :=
  ⟨(searchHandler_given_outcome noTables (always (.list [])) (lit "notabreed")).1 (Or.inl rfl),
    ((searchHandler_given_outcome noTables (always (.list [noBreedImage, noUrlImage])) (lit "siam")).2
      noBreedImage [noUrlImage] rfl).1⟩

/-- When `connectAPI` ends the process, so does the `/search` handler: no
response is sent. -/
theorem searchHandler_exit (U : Unicode) (W : World) (q : GoString)
    (h : connectAPI W (searchURL (ToLower U q)) = .exit) :
    searchHandler U (connectAPI W) q = .exit := by
  simp only [searchHandler, getSingleCatImageByBreed, h, Outcome.exit_bind]

/-- With a credential, a failure to build the request, to send it or to read
the body ends the process. -/
theorem connectAPI_transport (W : World) (url : GoString) (hkey : W.apiKey ≠ [])
    (hget : W.get url = .requestError ∨ W.get url = .sendError ∨ W.get url = .readError) :
    connectAPI W url = .exit := by
  rcases hget with h | h | h <;> simp only [connectAPI, hkey, if_false, h] <;> rfl

/-! ## The claims -/

/-- C1: for a raw image map whose `url` is a string and whose `breeds` is a
non-empty sequence with a map as first element carrying string `name`,
`weight.metric` and `origin`, both detail handlers render cat-detail with
ImageUrl = `url`, Weight = `weight.metric` and Origin = `origin` unchanged and
Name = capitalize(`name`). -/
theorem C1_detail_projection (U : Unicode) (m breed weight : JMap) (rest : List JVal)
    (url name metric origin : GoString)
    (hurl : m.get (lit "url") = .str url)
    (hbreeds : m.get (lit "breeds") = .arr (.obj breed :: rest))
    (hname : breed.get (lit "name") = .str name)
    (hweight : breed.get (lit "weight") = .obj weight)
    (hmetric : weight.get (lit "metric") = .str metric)
    (horigin : breed.get (lit "origin") = .str origin) :
    ∃ cap ts, capitalize U name = .ret cap ∧
      (∀ (api : Client) (id : GoString), api (idURL id) = .ret (.ok (.object m)) →
        catHandler U api id = .ret (detailView url cap metric ts origin)) ∧
      (∀ (api : Client) (q : GoString) (others : List JMap),
        api (searchURL (ToLower U q)) = .ret (.ok (.list (m :: others))) →
        searchHandler U api q = .ret (detailView url cap metric ts origin)) := by
  have hd : detail U m = .ret (detailView url (capitalized U name) metric
      (temperamentsOf (some breed)) origin) := by
    rw [detail_url_some U m url (by rw [hurl]; rfl)]
    simp [firstBreed, hbreeds, asSlice, asMap, nameOf, weightOf, originOf, hname, hweight,
      hmetric, horigin, asString]
  refine ⟨capitalized U name, temperamentsOf (some breed), capitalize_eq U name, ?_, ?_⟩
  · intro api id h
    rw [catHandler_object U api id m h, hd]
  · intro api q others h
    rw [searchHandler_cons U api q m others h, hd]

/-- C1 at scenario S2 (url "https://x/a.jpg", name "siamese", metric "3 - 5",
origin "Thailand"): the hypotheses hold there, and both handlers bind
ImageUrl "https://x/a.jpg", Name "Siamese", Weight "3 - 5", Origin "Thailand". -/
theorem C1_detail_projection_witness :
    (∃ cap ts, capitalize noTables (lit "siamese") = .ret cap ∧
      (∀ (api : Client) (id : GoString),
        api (idURL id)
          = .ret (.ok (.object (siameseImage (lit "Curious, Loyal, Friendly, Vocal")))) →
        catHandler noTables api id
          = .ret (detailView (lit "https://x/a.jpg") cap (lit "3 - 5") ts (lit "Thailand"))) ∧
      (∀ (api : Client) (q : GoString) (others : List JMap),
        api (searchURL (ToLower noTables q))
          = .ret (.ok (.list (siameseImage (lit "Curious, Loyal, Friendly, Vocal") :: others))) →
        searchHandler noTables api q
          = .ret (detailView (lit "https://x/a.jpg") cap (lit "3 - 5") ts (lit "Thailand")))) ∧
    catHandler noTables (always (.object (siameseImage (lit "Curious, Loyal, Friendly, Vocal"))))
        (lit "abc")
      = .ret (detailView (lit "https://x/a.jpg") (lit "Siamese") (lit "3 - 5")
          [lit "Curious", lit "Loyal", lit "Friendly"] (lit "Thailand")) ∧
    searchHandler noTables (always (.list [siameseImage (lit "Curious, Loyal, Friendly, Vocal")]))
        (lit "siam")
      = .ret (detailView (lit "https://x/a.jpg") (lit "Siamese") (lit "3 - 5")
          [lit "Curious", lit "Loyal", lit "Friendly"] (lit "Thailand")) :=
  ⟨C1_detail_projection noTables (siameseImage (lit "Curious, Loyal, Friendly, Vocal"))
      (siameseBreed (lit "Curious, Loyal, Friendly, Vocal"))
      [(lit "metric", .str (lit "3 - 5"))] [] (lit "https://x/a.jpg") (lit "siamese")
      (lit "3 - 5") (lit "Thailand") rfl rfl rfl rfl rfl rfl,
    rfl, rfl⟩

/-- C2: when the first breed's `temperament` is a string, the rendered
Temperaments list is the first three pieces (all of them when there are fewer)
of `strings.Split(temperament, ", ")`, in order, in both detail handlers; a
string that does not contain ", " gives the one-element list holding it. The
pieces are those of a split: joined by ", " they give `temperament` back, and
none of them contains ", ". -/
theorem C2_temperaments_split (U : Unicode) (m breed : JMap) (rest : List JVal)
    (url t : GoString)
    (hurl : m.get (lit "url") = .str url)
    (hbreeds : m.get (lit "breeds") = .arr (.obj breed :: rest))
    (htemp : breed.get (lit "temperament") = .str t) :
    ∃ name weight origin,
      (∀ (api : Client) (id : GoString), api (idURL id) = .ret (.ok (.object m)) →
        catHandler U api id
          = .ret (detailView url name weight ((Split t (lit ", ")).take 3) origin)) ∧
      (∀ (api : Client) (q : GoString) (others : List JMap),
        api (searchURL (ToLower U q)) = .ret (.ok (.list (m :: others))) →
        searchHandler U api q
          = .ret (detailView url name weight ((Split t (lit ", ")).take 3) origin)) ∧
      (¬ lit ", " <:+: t → (Split t (lit ", ")).take 3 = [t]) ∧
      (lit ", ").intercalate (Split t (lit ", ")) = t ∧
      (∀ p ∈ Split t (lit ", "), ¬ lit ", " <:+: p) := by
  have hd := detail_url_some U m url (by rw [hurl]; rfl)
  have hb : firstBreed m = some breed := by simp [firstBreed, hbreeds, asSlice, asMap]
  have ht : temperamentsOf (some breed) = (Split t (lit ", ")).take 3 := by
    simp [temperamentsOf, htemp, asString]
  rw [hb, ht] at hd
  refine ⟨capitalized U (nameOf (some breed)), weightOf (some breed), originOf (some breed),
    ?_, ?_, ?_, splitLoop_join _ _ _, Split_pieces _ (by decide) t⟩
  · intro api id h
    rw [catHandler_object U api id m h, hd]
  · intro api q others h
    rw [searchHandler_cons U api q m others h, hd]
  · intro h
    rw [Split_without_sep t (lit ", ") h]
    rfl

/-- C2 at the temperaments "A, B, C, D, E" (giving ["A","B","C"]) and "Calm"
(no ", ": giving ["Calm"]). -/
theorem C2_temperaments_split_witness :
    (∃ name weight origin,
      (∀ (api : Client) (id : GoString),
        api (idURL id) = .ret (.ok (.object (siameseImage (lit "A, B, C, D, E")))) →
        catHandler noTables api id
          = .ret (detailView (lit "https://x/a.jpg") name weight
              ((Split (lit "A, B, C, D, E") (lit ", ")).take 3) origin)) ∧
      (∀ (api : Client) (q : GoString) (others : List JMap),
        api (searchURL (ToLower noTables q))
          = .ret (.ok (.list (siameseImage (lit "A, B, C, D, E") :: others))) →
        searchHandler noTables api q
          = .ret (detailView (lit "https://x/a.jpg") name weight
              ((Split (lit "A, B, C, D, E") (lit ", ")).take 3) origin)) ∧
      (¬ lit ", " <:+: lit "A, B, C, D, E" →
        (Split (lit "A, B, C, D, E") (lit ", ")).take 3 = [lit "A, B, C, D, E"]) ∧
      (lit ", ").intercalate (Split (lit "A, B, C, D, E") (lit ", ")) = lit "A, B, C, D, E" ∧
      (∀ p ∈ Split (lit "A, B, C, D, E") (lit ", "), ¬ lit ", " <:+: p)) ∧
    (Split (lit "A, B, C, D, E") (lit ", ")).take 3 = [lit "A", lit "B", lit "C"] ∧
    catHandler noTables (always (.object (siameseImage (lit "A, B, C, D, E")))) (lit "abc")
      = .ret (detailView (lit "https://x/a.jpg") (lit "Siamese") (lit "3 - 5")
          [lit "A", lit "B", lit "C"] (lit "Thailand")) ∧
    ¬ lit ", " <:+: lit "Calm" ∧
    (Split (lit "Calm") (lit ", ")).take 3 = [lit "Calm"] ∧
    catHandler noTables (always (.object (siameseImage (lit "Calm")))) (lit "abc")
      = .ret (detailView (lit "https://x/a.jpg") (lit "Siamese") (lit "3 - 5")
          [lit "Calm"] (lit "Thailand")) := by
  have hcalm : ¬ lit ", " <:+: lit "Calm" := by decide
  obtain ⟨_, _, _, _, _, hsingle, _, _⟩ :=
    C2_temperaments_split noTables (siameseImage (lit "Calm")) (siameseBreed (lit "Calm")) []
      (lit "https://x/a.jpg") (lit "Calm") rfl rfl rfl
  exact ⟨C2_temperaments_split noTables (siameseImage (lit "A, B, C, D, E"))
      (siameseBreed (lit "A, B, C, D, E")) [] (lit "https://x/a.jpg") (lit "A, B, C, D, E")
      rfl rfl rfl,
    rfl, rfl, hcalm, hsingle hcalm, rfl⟩

/-- C3, as stated, fails: with `temperament` the empty string both handlers
bind Temperaments to the list holding one empty string, of length 1. -/
theorem C3_empty_temperament_counterexample :
    catHandler noTables (always (.object (siameseImage []))) (lit "abc")
      = .ret (detailView (lit "https://x/a.jpg") (lit "Siamese") (lit "3 - 5")
          [[]] (lit "Thailand")) ∧
    searchHandler noTables (always (.list [siameseImage []])) (lit "siam")
      = .ret (detailView (lit "https://x/a.jpg") (lit "Siamese") (lit "3 - 5")
          [[]] (lit "Thailand")) ∧
    ([[]] : List GoString).length = 1 ∧ ([[]] : List GoString) ≠ [] :=
  ⟨rfl, rfl, rfl, by simp⟩

/-- C3 amended: when the first breed's `temperament` is the empty string, both
detail handlers bind Temperaments to the one-element list holding the empty
string. -/
theorem C3_empty_temperament (U : Unicode) (m breed : JMap) (rest : List JVal)
    (url : GoString)
    (hurl : m.get (lit "url") = .str url)
    (hbreeds : m.get (lit "breeds") = .arr (.obj breed :: rest))
    (htemp : breed.get (lit "temperament") = .str []) :
    ∃ name weight origin,
      (∀ (api : Client) (id : GoString), api (idURL id) = .ret (.ok (.object m)) →
        catHandler U api id = .ret (detailView url name weight [[]] origin)) ∧
      (∀ (api : Client) (q : GoString) (others : List JMap),
        api (searchURL (ToLower U q)) = .ret (.ok (.list (m :: others))) →
        searchHandler U api q = .ret (detailView url name weight [[]] origin)) := by
  have hd := detail_url_some U m url (by rw [hurl]; rfl)
  have hb : firstBreed m = some breed := by simp [firstBreed, hbreeds, asSlice, asMap]
  have ht : temperamentsOf (some breed) = [[]] := by
    simp only [temperamentsOf, htemp, asString]
    rfl
  rw [hb, ht] at hd
  refine ⟨capitalized U (nameOf (some breed)), weightOf (some breed), originOf (some breed),
    ?_, ?_⟩
  · intro api id h
    rw [catHandler_object U api id m h, hd]
  · intro api q others h
    rw [searchHandler_cons U api q m others h, hd]

/-- C3 amended, at scenario S2 with `temperament` "". -/
theorem C3_empty_temperament_witness :
    ∃ name weight origin,
      (∀ (api : Client) (id : GoString),
        api (idURL id) = .ret (.ok (.object (siameseImage []))) →
        catHandler noTables api id
          = .ret (detailView (lit "https://x/a.jpg") name weight [[]] origin)) ∧
      (∀ (api : Client) (q : GoString) (others : List JMap),
        api (searchURL (ToLower noTables q)) = .ret (.ok (.list (siameseImage [] :: others))) →
        searchHandler noTables api q
          = .ret (detailView (lit "https://x/a.jpg") name weight [[]] origin)) :=
  C3_empty_temperament noTables (siameseImage []) (siameseBreed []) [] (lit "https://x/a.jpg")
    rfl rfl rfl

/-- C4: whenever `/cat/:id` or `/search` renders a template, a Temperaments
binding of that render has length at most 3, whatever the upstream sent. -/
theorem C4_temperaments_at_most_three (U : Unicode) (api : Client) (x : GoString)
    (status : Nat) (name : GoString) (bs : FiberMap) (ts : List GoString)
    (hrender : catHandler U api x = .ret (.view status name bs) ∨
      searchHandler U api x = .ret (.view status name bs))
    (hbound : (lit "Temperaments", Value.strs ts) ∈ bs) :
    ts.length ≤ 3 := by
  have key : ∀ url n w o b, Response.view status name bs = detailView url n w (temperamentsOf b) o →
      ts.length ≤ 3 := by
    intro url n w o b hv
    simp only [detailView, render, Response.view.injEq] at hv
    obtain ⟨-, -, rfl⟩ := hv
    simp only [List.mem_cons, Prod.mk.injEq, Value.strs.injEq, List.mem_nil_iff, or_false,
      false_and, and_false, false_or, reduceCtorEq] at hbound
    rw [hbound.2]
    exact temperamentsOf_length b
  rcases hrender with h | h
  · obtain ⟨m, url, -, -, hv⟩ := catHandler_view U api x status name bs h
    exact key _ _ _ _ _ hv
  · rcases searchHandler_view U api x status name bs h with hv | ⟨m, rest, url, -, -, hv⟩
    · simp only [errorView, render, Response.view.injEq] at hv
      obtain ⟨-, -, rfl⟩ := hv
      simp at hbound
    · exact key _ _ _ _ _ hv

/-- C4 at scenario S2 with five temperaments: the render binds three. -/
theorem C4_temperaments_at_most_three_witness :
    catHandler noTables (always (.object (siameseImage (lit "A, B, C, D, E")))) (lit "abc")
      = .ret (.view 200 (lit "cat-detail")
          [(lit "ImageUrl", .str (lit "https://x/a.jpg")),
           (lit "Name", .str (lit "Siamese")),
           (lit "Weight", .str (lit "3 - 5")),
           (lit "Temperaments", .strs [lit "A", lit "B", lit "C"]),
           (lit "Origin", .str (lit "Thailand"))]) ∧
    [lit "A", lit "B", lit "C"].length ≤ 3 :=
  ⟨rfl,
    C4_temperaments_at_most_three noTables
      (always (.object (siameseImage (lit "A, B, C, D, E")))) (lit "abc") 200 (lit "cat-detail")
      [(lit "ImageUrl", .str (lit "https://x/a.jpg")),
       (lit "Name", .str (lit "Siamese")),
       (lit "Weight", .str (lit "3 - 5")),
       (lit "Temperaments", .strs [lit "A", lit "B", lit "C"]),
       (lit "Origin", .str (lit "Thailand"))]
      [lit "A", lit "B", lit "C"] (Or.inl rfl)
      (List.mem_cons_of_mem _ (List.mem_cons_of_mem _ (List.mem_cons_of_mem _
        (List.mem_cons_self _ _))))⟩

/-- C5, as stated, fails: `capitalize("1abc")` is "1abc", which is not empty and
does not start with an upper-case letter. -/
theorem C5_capitalize_counterexample :
    (∀ U : Unicode, capitalize U (lit "1abc") = .ret (lit "1abc")) ∧
    ¬ NameShape (lit "1abc") := by
  refine ⟨fun U => rfl, ?_⟩
  intro h
  rcases h with h | ⟨c, rest, h, hc, -⟩
  · exact absurd h (by decide)
  · have h0 : lit "1abc" = 49 :: [97, 98, 99] := by decide
    rw [h0] at h
    injection h with h1 h2
    subst h1
    exact absurd hc (by decide)

/-- C5 amended: `capitalize("")` is "" and `capitalize` returns on every string
(no panic); on a non-empty ASCII string the result is the string with its first
byte upper-cased and the others lower-cased, so every later letter is
lower-case and, when the string starts with a letter, the first character is an
upper-case letter (a first byte that is no letter is kept as it is). -/
theorem C5_capitalize (U : Unicode) (s : GoString) :
    capitalize U [] = .ret [] ∧
    (∃ r, capitalize U s = .ret r) ∧
    (isASCII s = true → ∀ c rest, s = c :: rest →
      capitalize U s = .ret (upperByte c :: rest.map lowerByte) ∧
      (isLetterByte c = false → upperByte c = c) ∧
      (isLetterByte c = true → NameShape (upperByte c :: rest.map lowerByte)) ∧
      (∀ b ∈ rest.map lowerByte, isLetterByte b = true → isLowerByte b = true)) := by
  refine ⟨rfl, ⟨_, capitalize_eq U s⟩, ?_⟩
  intro hascii c rest hs
  subst hs
  have hc : c < 128 := by
    have := List.all_eq_true.mp hascii c (List.mem_cons_self _ _)
    simpa using this
  have hrest : isASCII rest = true := by
    apply List.all_eq_true.mpr
    intro b hb
    exact List.all_eq_true.mp hascii b (List.mem_cons_of_mem _ hb)
  have hlow : ∀ b ∈ rest.map lowerByte, isLetterByte b = true → isLowerByte b = true := by
    intro b hb hl
    obtain ⟨a, -, rfl⟩ := List.mem_map.mp hb
    exact lowerByte_letter_is_lower a hl
  refine ⟨?_, ?_, ?_, hlow⟩
  · rw [capitalize_eq]
    simp [capitalized, ToUpper_ascii_byte U c hc, ToLower_ascii U rest hrest]
  · intro hl
    apply upperByte_of_not_lower
    cases h : isLowerByte c with
    | false => rfl
    | true => simp [isLetterByte, h] at hl
  · intro hl
    exact Or.inr ⟨_, _, rfl, isUpperByte_upperByte_of_letter c hl, hlow⟩

/-- C5 amended, at "siamese" (giving "Siamese") and at "1aBC" (giving "1abc"). -/
theorem C5_capitalize_witness :
    capitalize noTables (lit "siamese") = .ret (lit "Siamese") ∧
    NameShape (lit "Siamese") ∧
    capitalize noTables (lit "1aBC") = .ret (lit "1abc") := by
  have h := (C5_capitalize noTables (lit "siamese")).2.2 (by decide) 115 (lit "iamese") (by decide)
  have e : upperByte 115 :: (lit "iamese").map lowerByte = lit "Siamese" := by decide
  rw [e] at h
  have h2 := (C5_capitalize noTables (lit "1aBC")).2.2 (by decide) 49 (lit "aBC") (by decide)
  have e2 : upperByte 49 :: (lit "aBC").map lowerByte = lit "1abc" := by decide
  rw [e2] at h2
  exact ⟨h.1, h.2.2.1 (by decide), h2.1⟩

/-- C6, as stated, fails: for the Object `{"id":"abc","url":""}` the `/cat/:id`
handler renders cat-detail with ImageUrl bound to the empty string. -/
theorem C6_image_url_counterexample :
    catHandler noTables (always (.object emptyUrlImage)) (lit "abc")
      = .ret (.view 200 (lit "cat-detail")
          [(lit "ImageUrl", .str []),
           (lit "Name", .str []),
           (lit "Weight", .str []),
           (lit "Temperaments", .strs []),
           (lit "Origin", .str [])]) :=
  rfl

/-- C6 amended: for every upstream Object handed to the `/cat/:id` handler,
either `url` is a string and the response is a cat-detail render whose ImageUrl
binding is that string unchanged (the empty string included), or `url` is absent
or not a string and the response is the 500 "Failed to get URL from cat data". -/
theorem C6_image_url (U : Unicode) (api : Client) (id : GoString) (m : JMap)
    (hobj : api (idURL id) = .ret (.ok (.object m))) :
    (∃ url name weight ts origin, m.get (lit "url") = .str url ∧
      catHandler U api id = .ret (detailView url name weight ts origin)) ∨
    ((∀ url, m.get (lit "url") ≠ .str url) ∧
      catHandler U api id = .ret (sendString 500 (lit "Failed to get URL from cat data"))) := by
  rw [catHandler_object U api id m hobj]
  cases hv : m.get (lit "url") with
  | str url =>
    exact Or.inl ⟨url, _, _, _, _, rfl, detail_url_some U m url (by rw [hv]; rfl)⟩
  | _ =>
    exact Or.inr ⟨fun url h => (by cases h), detail_url_none U m (by rw [hv]; rfl)⟩

/-- C6 amended, at the Object `{"id":"abc","url":""}`: the render binds
ImageUrl to "". -/
theorem C6_image_url_witness :
    (∃ url name weight ts origin, emptyUrlImage.get (lit "url") = .str url ∧
      catHandler noTables (always (.object emptyUrlImage)) (lit "abc")
        = .ret (detailView url name weight ts origin)) ∨
    ((∀ url, emptyUrlImage.get (lit "url") ≠ .str url) ∧
      catHandler noTables (always (.object emptyUrlImage)) (lit "abc")
        = .ret (sendString 500 (lit "Failed to get URL from cat data"))) :=
  C6_image_url noTables (always (.object emptyUrlImage)) (lit "abc") emptyUrlImage rfl

/-- C7: when `url` is absent from the raw image map or is not a string, the
`/cat/:id` handler and the `/search` handler (on element 0 of a non-empty
list) answer 500 with body "Failed to get URL from cat data" and render no
template; when `url` is a string, both answer with a cat-detail render, not
with that 500. -/
theorem C7_url_shape_error (U : Unicode) (m : JMap) :
    ((m.lookup (lit "url") = none ∨
        ∃ v, m.lookup (lit "url") = some v ∧ ∀ s, v ≠ .str s) →
      (∀ (api : Client) (id : GoString), api (idURL id) = .ret (.ok (.object m)) →
        catHandler U api id = .ret (.text 500 (lit "Failed to get URL from cat data"))) ∧
      (∀ (api : Client) (q : GoString) (others : List JMap),
        api (searchURL (ToLower U q)) = .ret (.ok (.list (m :: others))) →
        searchHandler U api q = .ret (.text 500 (lit "Failed to get URL from cat data")))) ∧
    (∀ url, m.lookup (lit "url") = some (.str url) →
      (∀ (api : Client) (id : GoString), api (idURL id) = .ret (.ok (.object m)) →
        (∃ bs, catHandler U api id = .ret (.view 200 (lit "cat-detail") bs)) ∧
        catHandler U api id ≠ .ret (.text 500 (lit "Failed to get URL from cat data"))) ∧
      (∀ (api : Client) (q : GoString) (others : List JMap),
        api (searchURL (ToLower U q)) = .ret (.ok (.list (m :: others))) →
        (∃ bs, searchHandler U api q = .ret (.view 200 (lit "cat-detail") bs)) ∧
        searchHandler U api q ≠ .ret (.text 500 (lit "Failed to get URL from cat data")))) := by
  constructor
  · intro hmiss
    have hnone : asString (m.get (lit "url")) = none := by
      rcases hmiss with h | ⟨v, h, hv⟩
      · simp [JMap.get, h, asString]
      · simp only [JMap.get, h]
        cases v with
        | str s => exact absurd rfl (hv s)
        | _ => rfl
    have hd := detail_url_none U m hnone
    constructor
    · intro api id h
      rw [catHandler_object U api id m h, hd]
      rfl
    · intro api q others h
      rw [searchHandler_cons U api q m others h, hd]
      rfl
  · intro url hurl
    have hsome : asString (m.get (lit "url")) = some url := by
      simp [JMap.get, hurl, asString]
    have hd := detail_url_some U m url hsome
    constructor
    · intro api id h
      rw [catHandler_object U api id m h, hd]
      exact ⟨⟨_, rfl⟩, fun hc => by cases hc⟩
    · intro api q others h
      rw [searchHandler_cons U api q m others h, hd]
      exact ⟨⟨_, rfl⟩, fun hc => by cases hc⟩

/-- C7 at scenario S5 (`{"id":"abc"}`, no `url`): both handlers answer the 500;
and at scenario S3 (a string `url`): both render cat-detail. -/
theorem C7_url_shape_error_witness :
    noUrlImage.lookup (lit "url") = none ∧
    catHandler noTables (always (.object noUrlImage)) (lit "abc")
      = .ret (.text 500 (lit "Failed to get URL from cat data")) ∧
    searchHandler noTables (always (.list [noUrlImage])) (lit "siam")
      = .ret (.text 500 (lit "Failed to get URL from cat data")) ∧
    noBreedImage.lookup (lit "url") = some (.str (lit "https://x/b.jpg")) ∧
    (∃ bs, catHandler noTables (always (.object noBreedImage)) (lit "abc")
      = .ret (.view 200 (lit "cat-detail") bs)) ∧
    (∃ bs, searchHandler noTables (always (.list [noBreedImage])) (lit "siam")
      = .ret (.view 200 (lit "cat-detail") bs)) :=
  ⟨rfl,
    ((C7_url_shape_error noTables noUrlImage).1 (Or.inl rfl)).1
      (always (.object noUrlImage)) (lit "abc") rfl,
    ((C7_url_shape_error noTables noUrlImage).1 (Or.inl rfl)).2
      (always (.list [noUrlImage])) (lit "siam") [] rfl,
    rfl,
    (((C7_url_shape_error noTables noBreedImage).2 (lit "https://x/b.jpg") rfl).1
      (always (.object noBreedImage)) (lit "abc") rfl).1,
    (((C7_url_shape_error noTables noBreedImage).2 (lit "https://x/b.jpg") rfl).2
      (always (.list [noBreedImage])) (lit "siam") [] rfl).1⟩

/-- C8: for a raw image map with a string `url` whose `breeds` is absent, an
empty sequence, not a sequence, or a sequence whose first element is not a map,
both detail handlers render cat-detail with ImageUrl = `url`, Name, Weight and
Origin empty and Temperaments the empty list. -/
theorem C8_no_breed (U : Unicode) (m : JMap) (url : GoString)
    (hurl : m.get (lit "url") = .str url)
    (hbreeds : m.lookup (lit "breeds") = none ∨
      m.get (lit "breeds") = .arr [] ∨
      (∀ xs, m.get (lit "breeds") ≠ .arr xs) ∨
      ∃ b rest, m.get (lit "breeds") = .arr (b :: rest) ∧ ∀ breed, b ≠ .obj breed) :
    (∀ (api : Client) (id : GoString), api (idURL id) = .ret (.ok (.object m)) →
      catHandler U api id = .ret (detailView url [] [] [] [])) ∧
    (∀ (api : Client) (q : GoString) (others : List JMap),
      api (searchURL (ToLower U q)) = .ret (.ok (.list (m :: others))) →
      searchHandler U api q = .ret (detailView url [] [] [] [])) ∧
    ([] : List GoString).length = 0 := by
  have hb : firstBreed m = none := by
    unfold firstBreed
    rcases hbreeds with h | h | h | ⟨b, rest, h, hb⟩
    · simp [JMap.get, h, asSlice]
    · simp [h, asSlice]
    · cases hv : m.get (lit "breeds") with
      | arr xs => exact absurd hv (h xs)
      | _ => rfl
    · simp only [h, asSlice]
      cases b with
      | obj breed => exact absurd rfl (hb breed)
      | _ => rfl
  have hd := detail_url_some U m url (by rw [hurl]; rfl)
  rw [hb] at hd
  refine ⟨?_, ?_, rfl⟩
  · intro api id h
    rw [catHandler_object U api id m h, hd]
    rfl
  · intro api q others h
    rw [searchHandler_cons U api q m others h, hd]
    rfl

/-- C8 at scenario S3, `{"id":"abc","url":"https://x/b.jpg","breeds":[]}`. -/
theorem C8_no_breed_witness :
    catHandler noTables (always (.object noBreedImage)) (lit "abc")
      = .ret (detailView (lit "https://x/b.jpg") [] [] [] []) ∧
    searchHandler noTables (always (.list [noBreedImage])) (lit "siam")
      = .ret (detailView (lit "https://x/b.jpg") [] [] [] []) :=
  ⟨(C8_no_breed noTables noBreedImage (lit "https://x/b.jpg") rfl (Or.inr (Or.inl rfl))).1
      (always (.object noBreedImage)) (lit "abc") rfl,
    (C8_no_breed noTables noBreedImage (lit "https://x/b.jpg") rfl (Or.inr (Or.inl rfl))).2.1
      (always (.list [noBreedImage])) (lit "siam") [] rfl⟩

/-- C9 on the code: when the Upstream Client fails on the `/search` path (the
upstream cannot be reached, or its body is `not json`), `connectAPI` ends the
process (`log.Fatalf`) instead of returning an error, so `/search` sends no
response at all, in particular not the cat-detail render with the binding
Error and status 200. -/
theorem C9_search_error_terminates :
    connectAPI notJsonWorld (searchURL (ToLower noTables (lit "Siam"))) = .exit ∧
    searchHandler noTables (connectAPI notJsonWorld) (lit "Siam") = .exit ∧
    searchHandler noTables (connectAPI notJsonWorld) (lit "Siam")
      ≠ .ret (.view 200 (lit "cat-detail")
          [(lit "Error",
            .str (lit "Oops! There seems to be no cat by that breed in our database."))]) ∧
    connectAPI unreachableWorld (searchURL (ToLower noTables (lit "Siam"))) = .exit ∧
    searchHandler noTables (connectAPI unreachableWorld) (lit "Siam") = .exit ∧
    searchHandler noTables (connectAPI unreachableWorld) (lit "Siam")
      ≠ .ret (.view 200 (lit "cat-detail")
          [(lit "Error",
            .str (lit "Oops! There seems to be no cat by that breed in our database."))]) :=
  ⟨rfl, rfl, fun h => (by cases h), rfl, rfl, fun h => (by cases h)⟩

/-- C10 on the code: with the upstream body `not json`, `connectAPI` ends the
process (`log.Fatalf`) instead of returning an error, and `GET /` gives no
response at all, in particular not the 500 "Failed to get cat images". -/
theorem C10_not_json_terminates :
    connectAPI notJsonWorld galleryURL = .exit ∧
    indexHandler (connectAPI notJsonWorld) = .exit ∧
    indexHandler (connectAPI notJsonWorld)
      ≠ .ret (.text 500 (lit "Failed to get cat images")) :=
  ⟨rfl, rfl, fun h => by cases h⟩

end CatApp
